import Mathlib

/-
Verification development for the PPG signal-processing core of the
anaemia_detection repository.

The embedding covers:
  * `max30100.py`, class `HeartRateMonitor`: bounded sample buffers
    (`collections.deque(maxlen=…)`), finger-presence detection, BPM
    estimation by peak detection (`calculate_bpm`), and SpO2 estimation by
    the AC/DC ratio-of-ratios (`calculate_spo2`);
  * `api.py`, function `read_sensor`: the per-tick sampling loop with
    warm-up gating and the trimmed-mean reduction of the candidate lists;
  * `sensor_wrapper.py`, function `read_sensor_data`: the session
    aggregation over collected (bpm, spo2) reading pairs.

Modelling conventions.  Python float arithmetic is modelled by exact
arithmetic: every quantity reachable by field operations alone is kept in
ℚ (the BPM pipeline is entirely rational), while SpO2 needs a square root
(`np.std`), so SpO2 values live in ℝ and the standard deviation is
`Real.sqrt` of the (rational) population variance.  Decimal constants of
the source (0.3, 0.7, 60.0, 110.0, …) are modelled by the exact rationals
they denote.  Machine integers from the sensor are unbounded in the model;
`int(x)` is truncation toward zero.  `collections.deque(maxlen=n)` is a
list that drops its oldest element on overflow.
-/

set_option maxRecDepth 10000

attribute [local semireducible] Rat.add Rat.mul Rat.sub Rat.inv

/-- Python `int(x)` applied to a rational: truncation toward zero. -/
def pyInt (q : ℚ) : ℤ := q.num.tdiv q.den

/-- Arithmetic mean, `np.mean` / `sum(l)/len(l)`; 0 on the empty list
(the sources always guard the empty case). -/
def mean (l : List ℚ) : ℚ := l.sum / l.length

/-- Population variance: the square of `np.std` (numpy default `ddof=0`). -/
def variance (l : List ℚ) : ℚ := mean (l.map (fun x => (x - mean l) ^ 2))

/-- `np.max` on a nonempty list (0 for the empty list, which the source
never reaches). -/
def listMax : List ℚ → ℚ
  | [] => 0
  | x :: xs => xs.foldl max x

/-- `np.min` on a nonempty list (0 for the empty list). -/
def listMin : List ℚ → ℚ
  | [] => 0
  | x :: xs => xs.foldl min x

/-- Python `l[-n:]`: the last `n` elements (all of `l` when `len(l) ≤ n`). -/
def lastN (n : ℕ) (l : List ℚ) : List ℚ := l.drop (l.length - n)

/-- Insertion into a sorted list, the auxiliary step of `sortList`. -/
def insertSorted (x : ℚ) : List ℚ → List ℚ
  | [] => [x]
  | y :: ys => if x ≤ y then x :: y :: ys else y :: insertSorted x ys

/-- Python `sorted(l)` for rationals.  Insertion sort; on a linearly
ordered type with antisymmetry the sorted rearrangement of a list is
unique as a list of values, so this is an exact model of `sorted`. -/
def sortList : List ℚ → List ℚ
  | [] => []
  | x :: xs => insertSorted x (sortList xs)

/-- Python `int(sum(l)/len(l))`: the truncated arithmetic mean. -/
def truncMean (l : List ℚ) : ℤ := pyInt (mean l)

/-- One `append` on a `collections.deque(maxlen=cap)`: the new element is
added at the right and the leftmost (oldest) element is evicted when the
deque is full. -/
def dequePush (cap : ℕ) (l : List ℚ) (x : ℚ) : List ℚ :=
  (l ++ [x]).drop ((l ++ [x]).length - cap)

/-- State of `HeartRateMonitor` (max30100.py).  `cap` is the
`buffer_size` fixed at construction (100 by default).  `last_peak_time`
and `beat_times` are initialised by the source and never used again; they
are kept for fidelity.  BPM state is rational (its pipeline uses field
operations only); SpO2 state is real (its pipeline takes a square root). -/
structure Monitor where
  cap : ℕ
  ir_buffer : List ℚ
  red_buffer : List ℚ
  timestamps : List ℚ
  last_peak_time : ℚ
  beat_times : List ℚ
  bpm : ℚ
  spo2 : ℝ

/-- `HeartRateMonitor.__init__(buffer_size)`: empty buffers, bpm = 0,
spo2 = 0. -/
def initMonitor (cap : ℕ) : Monitor :=
  { cap := cap, ir_buffer := [], red_buffer := [], timestamps := [],
    last_peak_time := 0, beat_times := [], bpm := 0, spo2 := 0 }

/-- `HeartRateMonitor.add_sample(ir, red)`: push one sample onto the
three parallel deques.  The wall-clock value of `time.time()` is taken as
the explicit argument `t`. -/
def addSample (s : Monitor) (ir red t : ℚ) : Monitor :=
  { s with ir_buffer := dequePush s.cap s.ir_buffer ir,
           red_buffer := dequePush s.cap s.red_buffer red,
           timestamps := dequePush s.cap s.timestamps t }

/-- Push a whole list of `(ir, red, t)` samples one at a time. -/
def pushAll (s : Monitor) (xs : List (ℚ × ℚ × ℚ)) : Monitor :=
  xs.foldl (fun m a => addSample m a.1 a.2.1 a.2.2) s

/-- `HeartRateMonitor.is_finger_detected()`: needs ≥ 10 samples, then
tests whether the mean of the last 10 ir values exceeds 10000. -/
def isFingerDetected (s : Monitor) : Bool :=
  if s.ir_buffer.length < 10 then false
  else decide (10000 < mean (lastN 10 s.ir_buffer))

/-- `np.convolve(ir_data, np.ones(5)/5, mode='valid')`: the window-5
moving average, defined for lists of length ≥ 5 (the source guards
shorter input away); output entry `j` averages entries `j..j+4`. -/
def movAvg (l : List ℚ) : List ℚ :=
  (List.range (l.length - 4)).map (fun j => ((l.drop j).take 5).sum / 5)

/-- The peak scan of `calculate_bpm`: indices `i` in `1..len-2` of the
smoothed series that are strict local maxima and exceed the threshold. -/
def findPeaks (sm : List ℚ) (thr : ℚ) : List ℕ :=
  (List.range' 1 (sm.length - 2)).filter
    (fun i => decide (sm.getD (i-1) 0 < sm.getD i 0 ∧
                      sm.getD (i+1) 0 < sm.getD i 0 ∧ thr < sm.getD i 0))

/-- The smoothed ir series used by `calculate_bpm`. -/
def smoothedOf (s : Monitor) : List ℚ := movAvg s.ir_buffer

/-- The adaptive peak threshold:
`np.mean(smoothed) + 0.3 * (np.max(smoothed) - np.min(smoothed))`. -/
def thresholdOf (s : Monitor) : ℚ :=
  mean (smoothedOf s) + 3/10 * (listMax (smoothedOf s) - listMin (smoothedOf s))

/-- The peak list computed inside `calculate_bpm`. -/
def calcPeaks (s : Monitor) : List ℕ := findPeaks (smoothedOf s) (thresholdOf s)

/-- Consecutive peak-to-peak time differences, keeping only those in the
open interval (0.4 s, 2.0 s): `self.timestamps[peaks[i]] -
self.timestamps[peaks[i-1]]`. -/
def peakIntervals (ts : List ℚ) (ps : List ℕ) : List ℚ :=
  ((ps.zip ps.tail).map (fun a => ts.getD a.2 0 - ts.getD a.1 0)).filter
    (fun d => decide (2/5 < d ∧ d < 2))

/-- The exponential blend of an accepted BPM estimate:
`self.bpm = 0.7 * self.bpm + 0.3 * new_bpm`. -/
def bpmBlend (old new : ℚ) : ℚ := 7/10 * old + 3/10 * new

/-- The state change of `calculate_bpm` once ≥ 30 samples are present:
with ≥ 2 peaks and at least one valid interval, `new_bpm =
60 / mean(intervals)` is accepted iff it lies in [40, 200]; a first
acceptance sets `self.bpm`, later ones blend. -/
def bpmUpdate (s : Monitor) : Monitor :=
  let peaks := calcPeaks s
  if 2 ≤ peaks.length then
    let ivs := peakIntervals s.timestamps peaks
    if ivs = [] then s
    else
      let new_bpm := 60 / mean ivs
      if 40 ≤ new_bpm ∧ new_bpm ≤ 200 then
        { s with bpm := if s.bpm = 0 then new_bpm else bpmBlend s.bpm new_bpm }
      else s
  else s

/-- `HeartRateMonitor.calculate_bpm()`.  Fewer than 30 samples: return
the literal 0 and leave the state alone.  Fewer than 5 samples (dead code
under the first guard): return `self.bpm` unconverted.  Otherwise run the
peak pipeline and return `int(self.bpm)` of the updated state. -/
def calcBpm (s : Monitor) : ℚ × Monitor :=
  if s.ir_buffer.length < 30 then (0, s)
  else if s.ir_buffer.length < 5 then (s.bpm, s)
  else (((pyInt (bpmUpdate s).bpm : ℤ) : ℚ), bpmUpdate s)

/-- `np.std` of a buffer: the square root of the population variance. -/
noncomputable def stdR (l : List ℚ) : ℝ := Real.sqrt ((variance l : ℚ) : ℝ)

/-- Python `int(x)` on a real value: truncation toward zero. -/
noncomputable def pyIntR (x : ℝ) : ℤ :=
  if x < 0 then ⌈x⌉ else ⌊x⌋

open scoped Classical

/-- `HeartRateMonitor.calculate_spo2()`.  With < 30 samples in either
buffer it returns the literal 0.  With a zero DC (mean) on either channel
or a zero ir AC (standard deviation) it returns `self.spo2` raw — note:
NOT passed through `int(…)` in the source.  Otherwise `r =
(red_ac/red_dc)/(ir_ac/ir_dc)`, `spo2 = 110 - 25*r`, accepted into the
smoothed state iff in [70, 100] (first acceptance sets, later ones blend
with weights 0.8/0.2), and `int(self.spo2)` of the updated state is
returned. -/
noncomputable def calcSpo2 (s : Monitor) : ℝ × Monitor :=
  if s.ir_buffer.length < 30 ∨ s.red_buffer.length < 30 then (0, s)
  else
    let ir_ac : ℝ := stdR s.ir_buffer
    let ir_dc : ℝ := ((mean s.ir_buffer : ℚ) : ℝ)
    let red_ac : ℝ := stdR s.red_buffer
    let red_dc : ℝ := ((mean s.red_buffer : ℚ) : ℝ)
    if ir_dc = 0 ∨ red_dc = 0 ∨ ir_ac = 0 then (s.spo2, s)
    else
      let r : ℝ := (red_ac / red_dc) / (ir_ac / ir_dc)
      let spo2_raw : ℝ := 110 - 25 * r
      let s' := if 70 ≤ spo2_raw ∧ spo2_raw ≤ 100 then
          { s with spo2 := if s.spo2 = 0 then spo2_raw
                           else 8/10 * s.spo2 + 2/10 * spo2_raw }
        else s
      (((pyIntR s'.spo2 : ℤ) : ℝ), s')

/-- The degenerate-signal guard condition of `calculate_spo2`: buffers
long enough, and a zero DC on either channel or a zero ir AC. -/
def spo2Guard (s : Monitor) : Prop :=
  ¬(s.ir_buffer.length < 30 ∨ s.red_buffer.length < 30) ∧
    (((mean s.ir_buffer : ℚ) : ℝ) = 0 ∨ ((mean s.red_buffer : ℚ) : ℝ) = 0 ∨
      stdR s.ir_buffer = 0)

/-- Monitor states reachable from a freshly constructed
`HeartRateMonitor` by any sequence of `add_sample`, `calculate_bpm` and
`calculate_spo2` calls. -/
inductive Reachable : Monitor → Prop
  | init (cap : ℕ) : Reachable (initMonitor cap)
  | add (s : Monitor) (ir red t : ℚ) : Reachable s → Reachable (addSample s ir red t)
  | bpm (s : Monitor) : Reachable s → Reachable (calcBpm s).2
  | spo2 (s : Monitor) : Reachable s → Reachable (calcSpo2 s).2

/-- The state invariant maintained by every reachable monitor state. -/
def MonitorInv (s : Monitor) : Prop :=
  s.red_buffer.length = s.ir_buffer.length ∧
  s.timestamps.length = s.ir_buffer.length ∧
  s.ir_buffer.length ≤ s.cap ∧
  (s.bpm = 0 ∨ 40 ≤ s.bpm ∧ s.bpm ≤ 200) ∧
  (s.ir_buffer.length < 30 → s.bpm = 0) ∧
  (s.spo2 = 0 ∨ 70 ≤ s.spo2 ∧ s.spo2 ≤ 100) ∧
  (s.ir_buffer.length < 30 → s.spo2 = 0)

/-- State of the collection loop of `api.read_sensor` (api.py): the
monitor plus the two independently collected candidate lists. -/
structure ApiSession where
  monitor : Monitor
  bpm_samples : List ℚ
  spo2_samples : List ℝ

/-- One iteration of the `read_sensor` loop body (api.py) on a
successfully read sample, with `use_monitor` true.  `elapsed` stands for
`time.time() - start_time`.  Only when `elapsed > warmup` is the sample
pushed; then, if a finger is detected, the two estimates are computed and
appended to the candidate lists when inside (40, 200) resp. (80, 100). -/
noncomputable def apiTick (warmup elapsed ir red t : ℚ) (st : ApiSession) : ApiSession :=
  if warmup < elapsed then
    let m := addSample st.monitor ir red t
    if isFingerDetected m then
      let pb := calcBpm m
      let ps := calcSpo2 pb.2
      { monitor := ps.2,
        bpm_samples := if 40 < pb.1 ∧ pb.1 < 200
                       then st.bpm_samples ++ [pb.1] else st.bpm_samples,
        spo2_samples := if 80 < ps.1 ∧ ps.1 < 100
                        then st.spo2_samples ++ [ps.1] else st.spo2_samples }
    else { st with monitor := m }
  else st

/-- The fresh session state at the start of `read_sensor`. -/
def apiInit : ApiSession := { monitor := initMonitor 100, bpm_samples := [], spo2_samples := [] }

/-- The trimming step of `read_sensor` (api.py): sort, then take the
Python slice `sorted[trim:-trim]` with `trim = len//5` when `trim > 0 and
len > 2`, else keep the sorted list whole.  The slice `l[t:-t]` keeps the
entries at indices `t .. len-t-1`. -/
def trimSamples (l : List ℚ) : List ℚ :=
  let sorted := sortList l
  let trim := sorted.length / 5
  if 0 < trim ∧ 2 < sorted.length then
    (sorted.drop trim).take (sorted.length - 2 * trim)
  else sorted

/-- The per-channel reduction of `read_sensor` (api.py): 0 for an empty
candidate list, otherwise the truncated mean of the trimmed list. -/
def trimReduce (l : List ℚ) : ℤ :=
  if l = [] then 0
  else
    let trimmed := trimSamples l
    if trimmed = [] then 0 else truncMean trimmed

/-- Modelled from the claim wording: sort, then drop the lowest
`floor(count/5)` entries and the highest `floor(count/5)` entries (when
the trim count is positive and the count exceeds 2), then keep the rest.
Dropping the lowest `t` is `drop t`, dropping the highest `t` is
`take (len - t)`. -/
def specTrimSamples (l : List ℚ) : List ℚ :=
  let sorted := sortList l
  let trim := sorted.length / 5
  if 0 < trim ∧ 2 < sorted.length then
    (sorted.take (sorted.length - trim)).drop trim
  else sorted

/-- The claim's reduction: truncated mean of the spec-trimmed list. -/
def specTrimReduce (l : List ℚ) : ℤ := truncMean (specTrimSamples l)

/-- Result record of `read_sensor_data` (sensor_wrapper.py). -/
structure WrapperResult where
  heart_rate : ℤ
  spo2 : ℤ
  success : Bool
  error : Option String
  deriving DecidableEq

/-- The session reduction of `read_sensor_data` (sensor_wrapper.py) over
the collected `(bpm, spo2)` reading pairs: with ≥ 5 readings, the
truncated mean of each channel over the last 10 readings; otherwise the
failure record with the diagnostic `'Not enough stable readings'`. -/
def wrapperAggregate (rs : List (ℚ × ℚ)) : WrapperResult :=
  if 5 ≤ rs.length then
    let recent := (rs.drop (rs.length - 10))
    { heart_rate := truncMean (recent.map Prod.fst),
      spo2 := truncMean (recent.map Prod.snd),
      success := true, error := none }
  else
    { heart_rate := 0, spo2 := 0, success := false,
      error := some "Not enough stable readings" }

/-- Iterating the accepted-estimate blend of `calculate_bpm` with a
constant incoming estimate `new`. -/
def blendIter (new : ℚ) : ℕ → ℚ → ℚ
  | 0, b => b
  | n+1, b => blendIter new n (bpmBlend b new)

/-- The 30 samples of the counterexample run for the SpO2 return-path
claim: ir takes the values 102 and 98 fifteen times each (mean 100,
variance 4), red likewise 202 and 198 (mean 200, variance 4). -/
def cexBatch1 : List (ℚ × ℚ × ℚ) :=
  List.replicate 15 ((102:ℚ), (202:ℚ), (0:ℚ)) ++
    List.replicate 15 ((98:ℚ), (198:ℚ), (0:ℚ))

/-- 30 follow-up samples with ir = -100, which bring the 60-entry ir
buffer to mean 0 and so trigger the DC guard of `calculate_spo2`. -/
def cexBatch2 : List (ℚ × ℚ × ℚ) :=
  List.replicate 30 ((-100:ℚ), (50:ℚ), (0:ℚ))

/-- The reachable monitor state of the SpO2 counterexample: push
`cexBatch1`, run `calculate_spo2` once (setting smoothed SpO2 = 97.5),
then push `cexBatch2` (driving the ir mean to 0). -/
noncomputable def cexState : Monitor :=
  pushAll (calcSpo2 (pushAll (initMonitor 100) cexBatch1)).2 cexBatch2

/-- The readings of the counterexample session for the trimmed-mean
claim: ten (70, 95) pairs followed by one (150, 95) pair. -/
def cexReadings : List (ℚ × ℚ) := List.replicate 10 ((70:ℚ), (95:ℚ)) ++ [(150, 95)]

/-! Basic facts about the deque model. -/

lemma dequePush_def (cap : ℕ) (l : List ℚ) (x : ℚ) :
    dequePush cap l x = (l ++ [x]).drop (l.length + 1 - cap) := by
  simp [dequePush]

lemma dequePush_length (cap : ℕ) (l : List ℚ) (x : ℚ) :
    (dequePush cap l x).length = l.length + 1 - (l.length + 1 - cap) := by
  simp [dequePush]

lemma foldl_dequePush (cap : ℕ) (xs : List ℚ) :
    ∀ l : List ℚ, l.length ≤ cap →
      List.foldl (dequePush cap) l xs = (l ++ xs).drop (l.length + xs.length - cap) := by
  induction xs with
  | nil =>
    intro l h
    have hz : l.length + ([] : List ℚ).length - cap = 0 := by simp; omega
    rw [List.foldl_nil, hz, List.append_nil, List.drop_zero]
  | cons x xs ih =>
    intro l h
    rw [List.foldl_cons, ih (dequePush cap l x) (by rw [dequePush_length]; omega)]
    rw [dequePush_length, dequePush_def]
    rw [← List.drop_append_of_le_length
      (show l.length + 1 - cap ≤ (l ++ [x]).length by simp)]
    rw [List.drop_drop]
    rw [List.append_assoc, List.singleton_append]
    congr 1
    simp only [List.length_cons]
    omega

lemma pushAll_nil (s : Monitor) : pushAll s [] = s := rfl

lemma pushAll_cons (s : Monitor) (a : ℚ × ℚ × ℚ) (xs : List (ℚ × ℚ × ℚ)) :
    pushAll s (a :: xs) = pushAll (addSample s a.1 a.2.1 a.2.2) xs := rfl

lemma pushAll_cap (xs : List (ℚ × ℚ × ℚ)) : ∀ s : Monitor, (pushAll s xs).cap = s.cap := by
  induction xs with
  | nil => intro s; rfl
  | cons a xs ih => intro s; rw [pushAll_cons, ih]; rfl

lemma pushAll_spo2 (xs : List (ℚ × ℚ × ℚ)) : ∀ s : Monitor, (pushAll s xs).spo2 = s.spo2 := by
  induction xs with
  | nil => intro s; rfl
  | cons a xs ih => intro s; rw [pushAll_cons, ih]; rfl

lemma pushAll_bpm (xs : List (ℚ × ℚ × ℚ)) : ∀ s : Monitor, (pushAll s xs).bpm = s.bpm := by
  induction xs with
  | nil => intro s; rfl
  | cons a xs ih => intro s; rw [pushAll_cons, ih]; rfl

lemma pushAll_ir (xs : List (ℚ × ℚ × ℚ)) :
    ∀ s : Monitor, (pushAll s xs).ir_buffer =
      List.foldl (dequePush s.cap) s.ir_buffer (xs.map (fun a => a.1)) := by
  induction xs with
  | nil => intro s; rfl
  | cons a xs ih => intro s; rw [pushAll_cons, ih]; rfl

lemma pushAll_red (xs : List (ℚ × ℚ × ℚ)) :
    ∀ s : Monitor, (pushAll s xs).red_buffer =
      List.foldl (dequePush s.cap) s.red_buffer (xs.map (fun a => a.2.1)) := by
  induction xs with
  | nil => intro s; rfl
  | cons a xs ih => intro s; rw [pushAll_cons, ih]; rfl

lemma pushAll_ts (xs : List (ℚ × ℚ × ℚ)) :
    ∀ s : Monitor, (pushAll s xs).timestamps =
      List.foldl (dequePush s.cap) s.timestamps (xs.map (fun a => a.2.2)) := by
  induction xs with
  | nil => intro s; rfl
  | cons a xs ih => intro s; rw [pushAll_cons, ih]; rfl

/-- C8: pushing N+k samples one at a time into a freshly constructed
monitor of buffer capacity N leaves exactly the last N pushed samples in
each of the ir, red and timestamp buffers, in oldest-first insertion
order, and for any push sequence the buffer length never exceeds N. -/
theorem buffer_eviction (cap k : ℕ) (xs : List (ℚ × ℚ × ℚ)) (h : xs.length = cap + k) :
    (pushAll (initMonitor cap) xs).ir_buffer = (xs.map (fun a => a.1)).drop k ∧
    (pushAll (initMonitor cap) xs).red_buffer = (xs.map (fun a => a.2.1)).drop k ∧
    (pushAll (initMonitor cap) xs).timestamps = (xs.map (fun a => a.2.2)).drop k ∧
    ∀ ys : List (ℚ × ℚ × ℚ),
      (pushAll (initMonitor cap) ys).ir_buffer.length ≤ cap ∧
      (pushAll (initMonitor cap) ys).red_buffer.length ≤ cap ∧
      (pushAll (initMonitor cap) ys).timestamps.length ≤ cap := by
  have key : ∀ (f : ℚ × ℚ × ℚ → ℚ) (zs : List (ℚ × ℚ × ℚ)),
      List.foldl (dequePush cap) [] (zs.map f) = (zs.map f).drop (zs.length - cap) := by
    intro f zs
    rw [foldl_dequePush cap (zs.map f) [] (by simp)]
    simp
  refine ⟨?_, ?_, ?_, ?_⟩
  · rw [pushAll_ir]; rw [show (initMonitor cap).cap = cap from rfl]
    rw [show (initMonitor cap).ir_buffer = [] from rfl, key]
    congr 1; omega
  · rw [pushAll_red]; rw [show (initMonitor cap).cap = cap from rfl]
    rw [show (initMonitor cap).red_buffer = [] from rfl, key]
    congr 1; omega
  · rw [pushAll_ts]; rw [show (initMonitor cap).cap = cap from rfl]
    rw [show (initMonitor cap).timestamps = [] from rfl, key]
    congr 1; omega
  · intro ys
    refine ⟨?_, ?_, ?_⟩
    · rw [pushAll_ir, show (initMonitor cap).cap = cap from rfl,
        show (initMonitor cap).ir_buffer = [] from rfl, key]
      simp only [List.length_drop, List.length_map]
      omega
    · rw [pushAll_red, show (initMonitor cap).cap = cap from rfl,
        show (initMonitor cap).red_buffer = [] from rfl, key]
      simp only [List.length_drop, List.length_map]
      omega
    · rw [pushAll_ts, show (initMonitor cap).cap = cap from rfl,
        show (initMonitor cap).timestamps = [] from rfl, key]
      simp only [List.length_drop, List.length_map]
      omega

/-- Witness for C8: capacity 2, three pushes, the last two samples
remain. -/
theorem buffer_eviction_witness :
    ([((1:ℚ),(2:ℚ),(3:ℚ)), (4,5,6), (7,8,9)] : List (ℚ × ℚ × ℚ)).length = 2 + 1 ∧
    (pushAll (initMonitor 2) [((1:ℚ),(2:ℚ),(3:ℚ)), (4,5,6), (7,8,9)]).ir_buffer = [4, 7] := by
  have h := buffer_eviction 2 1 [((1:ℚ),(2:ℚ),(3:ℚ)), (4,5,6), (7,8,9)] (by decide)
  exact ⟨by decide, h.1.trans (by decide)⟩

/-! The exponential BPM blend (C9). -/

lemma blendIter_closed (new : ℚ) : ∀ (n : ℕ) (b : ℚ),
    blendIter new n b - new = (7/10)^n * (b - new) := by
  intro n
  induction n with
  | zero => intro b; simp [blendIter]
  | succ n ih =>
    intro b
    rw [show blendIter new (n+1) b = blendIter new n (bpmBlend b new) from rfl, ih]
    rw [bpmBlend]
    ring

/-- C9 (amended): from any validly set smoothed BPM in [40, 200], the
accepted-estimate blend with constant new estimate 72 reaches within 1
unit of 72 within 14 ticks (10 ticks, as claimed, are not enough from a
start of 200). -/
theorem blend_converges (b : ℚ) (h1 : 40 ≤ b) (h2 : b ≤ 200) :
    |blendIter 72 14 b - 72| ≤ 1 := by
  rw [blendIter_closed, abs_mul]
  have hb : |b - 72| ≤ 128 := abs_le.mpr ⟨by linarith, by linarith⟩
  have hp : |((7:ℚ)/10)^14| = (7/10)^14 := abs_of_nonneg (by positivity)
  calc |((7:ℚ)/10)^14| * |b - 72| ≤ |((7:ℚ)/10)^14| * 128 := by
        exact mul_le_mul_of_nonneg_left hb (abs_nonneg _)
    _ ≤ 1 := by rw [hp]; norm_num

/-- Witness for C9 at the start value 100. -/
theorem blend_converges_witness : |blendIter 72 14 100 - 72| ≤ 1 :=
  blend_converges 100 (by norm_num) (by norm_num)

/-- Counterexample to C9 as stated: from the valid start 200, ten ticks
of the blend with constant estimate 72 still leave the smoothed BPM more
than 1 unit away from 72. -/
theorem blend_ten_ticks_insufficient :
    (40:ℚ) ≤ 200 ∧ (200:ℚ) ≤ 200 ∧ ¬(|blendIter 72 10 200 - 72| ≤ 1) := by
  refine ⟨by norm_num, by norm_num, ?_⟩
  decide

/-! Sorting is a permutation; the trimmed-mean reduction (C1, C2). -/

lemma insertSorted_perm (x : ℚ) (l : List ℚ) : (insertSorted x l).Perm (x :: l) := by
  induction l with
  | nil => simp [insertSorted]
  | cons y ys ih =>
    rw [insertSorted]
    by_cases h : x ≤ y
    · rw [if_pos h]
    · rw [if_neg h]
      exact (ih.cons y).trans (List.Perm.swap x y ys)

lemma sortList_perm (l : List ℚ) : (sortList l).Perm l := by
  induction l with
  | nil => simp [sortList]
  | cons x xs ih => exact (insertSorted_perm x (sortList xs)).trans (ih.cons x)

lemma sortList_length (l : List ℚ) : (sortList l).length = l.length :=
  (sortList_perm l).length_eq

lemma truncMean_sortList (l : List ℚ) : truncMean (sortList l) = truncMean l := by
  unfold truncMean mean
  rw [(sortList_perm l).sum_eq, sortList_length]

lemma trimSamples_eq_spec (l : List ℚ) : trimSamples l = specTrimSamples l := by
  simp only [trimSamples, specTrimSamples]
  split_ifs with h
  · rw [List.drop_take]
    congr 1
    omega
  · rfl

lemma trimSamples_ne_nil (l : List ℚ) (hl : l ≠ []) : trimSamples l ≠ [] := by
  have hlen : 0 < l.length := List.length_pos.mpr hl
  have hs : (sortList l).length = l.length := sortList_length l
  simp only [trimSamples]
  split_ifs with h
  · apply List.length_pos.mp
    simp only [List.length_take, List.length_drop]
    omega
  · apply List.length_pos.mp
    omega

/-- C1 (amended): the per-channel reduction of `api.read_sensor` agrees
with the claim's description of the trimmed mean — sort, drop
`floor(count/5)` entries from each end when that count is positive and
there are more than 2 candidates, else keep the whole list, then take the
truncated mean — and for 3 or 4 candidates it is the untrimmed truncated
mean; `sensor_wrapper.read_sensor_data`, by contrast, reduces each
channel to the untrimmed truncated mean of the last 10 collected
readings. -/
theorem trimmed_mean_reduction :
    (∀ l : List ℚ, trimReduce l = specTrimReduce l) ∧
    (∀ l : List ℚ, l.length = 3 ∨ l.length = 4 → trimReduce l = truncMean l) ∧
    (∀ rs : List (ℚ × ℚ), 5 ≤ rs.length →
      (wrapperAggregate rs).heart_rate = truncMean ((rs.drop (rs.length - 10)).map Prod.fst) ∧
      (wrapperAggregate rs).spo2 = truncMean ((rs.drop (rs.length - 10)).map Prod.snd)) := by
  refine ⟨?_, ?_, ?_⟩
  · intro l
    by_cases hl : l = []
    · subst hl; decide
    · unfold trimReduce
      rw [if_neg hl]
      simp only [if_neg (trimSamples_ne_nil l hl)]
      rw [trimSamples_eq_spec]
      rfl
  · intro l hl
    have hne : l ≠ [] := by
      apply List.length_pos.mp
      rcases hl with h | h <;> omega
    have ht : trimSamples l = sortList l := by
      simp only [trimSamples]
      rw [if_neg]
      rw [sortList_length]
      rcases hl with h | h <;> simp [h]
    unfold trimReduce
    rw [if_neg hne]
    simp only [ht]
    rw [if_neg (by rw [← ht]; exact trimSamples_ne_nil l hne)]
    exact truncMean_sortList l
  · intro rs h
    constructor <;> simp [wrapperAggregate, if_pos h]

/-- Witness for C1: a 3-element list uses the untrimmed mean, and a
5-reading wrapper session averages the last 10 (= all 5) readings. -/
theorem trimmed_mean_reduction_witness :
    trimReduce [(3:ℚ), 1, 2] = truncMean [(3:ℚ), 1, 2] ∧
    (wrapperAggregate [((60:ℚ),(95:ℚ)),(61,95),(62,95),(63,95),(64,95)]).heart_rate = 62 := by
  constructor
  · exact trimmed_mean_reduction.2.1 [(3:ℚ), 1, 2] (Or.inl (by decide))
  · have h := (trimmed_mean_reduction.2.2
      [((60:ℚ),(95:ℚ)),(61,95),(62,95),(63,95),(64,95)] (by decide)).1
    exact h.trans (by decide)

/-- Counterexample to C1 as stated: in the wrapper session with bpm
candidates [70 ×10, 150] the final heart rate is the untrimmed mean 78 of
the last 10 readings, not the trimmed mean 70 the claim prescribes. -/
theorem wrapper_mean_not_trimmed :
    (wrapperAggregate cexReadings).success = true ∧
    (wrapperAggregate cexReadings).heart_rate = 78 ∧
    trimReduce (cexReadings.map Prod.fst) = 70 ∧ ((78:ℤ) ≠ 70) := by
  exact ⟨by decide, by decide, by decide, by decide⟩

/-- C2 (amended): a wrapper session with fewer than 5 collected reading
pairs — in particular one with presence false throughout, which collects
none — yields success=false, heart_rate=0, spo2=0, and the diagnostic
"Not enough stable readings" (the claim's string "insufficient stable
readings" does not occur in the code). -/
theorem wrapper_insufficient_readings (rs : List (ℚ × ℚ)) (h : rs.length < 5) :
    wrapperAggregate rs =
      { heart_rate := 0, spo2 := 0, success := false,
        error := some "Not enough stable readings" } := by
  unfold wrapperAggregate
  rw [if_neg (by omega)]

/-- Witness for C2: the empty reading list. -/
theorem wrapper_insufficient_readings_witness :
    wrapperAggregate [] =
      { heart_rate := 0, spo2 := 0, success := false,
        error := some "Not enough stable readings" } :=
  wrapper_insufficient_readings [] (by decide)

/-- Counterexample to C2 as stated: the failure diagnostic produced by
the code is "Not enough stable readings", which is not the string
"insufficient stable readings" named by the claim. -/
theorem wrapper_diagnostic_differs :
    (wrapperAggregate []).success = false ∧ (wrapperAggregate []).heart_rate = 0 ∧
    (wrapperAggregate []).spo2 = 0 ∧
    (wrapperAggregate []).error = some "Not enough stable readings" ∧
    (some "Not enough stable readings" ≠ some "insufficient stable readings") := by
  exact ⟨by decide, by decide, by decide, by decide, by decide⟩

/-! The reachable-state invariant (C4, C5, C7, C10). -/

lemma pyInt_eq_floor (q : ℚ) (hq : 0 ≤ q) : pyInt q = ⌊q⌋ := by
  unfold pyInt
  rw [Rat.floor_def]
  exact Int.tdiv_eq_ediv (Rat.num_nonneg.mpr hq) (by positivity)

lemma inv_init (cap : ℕ) : MonitorInv (initMonitor cap) := by
  refine ⟨rfl, rfl, ?_, Or.inl rfl, fun _ => rfl, Or.inl rfl, fun _ => rfl⟩
  exact Nat.zero_le cap

lemma inv_add (s : Monitor) (ir red t : ℚ) (h : MonitorInv s) :
    MonitorInv (addSample s ir red t) := by
  obtain ⟨h1, h2, h3, h4, h5, h6, h7⟩ := h
  simp only [MonitorInv, addSample, dequePush_length]
  refine ⟨by omega, by omega, by omega, h4, ?_, h6, ?_⟩
  · intro hlt
    exact h5 (by omega)
  · intro hlt
    exact h7 (by omega)

lemma bpmUpdate_cases (s : Monitor) :
    bpmUpdate s = s ∨
    ∃ nb : ℚ, 40 ≤ nb ∧ nb ≤ 200 ∧
      bpmUpdate s = { s with bpm := if s.bpm = 0 then nb else bpmBlend s.bpm nb } := by
  simp only [bpmUpdate]
  by_cases h1 : 2 ≤ (calcPeaks s).length
  · rw [if_pos h1]
    by_cases h2 : peakIntervals s.timestamps (calcPeaks s) = []
    · rw [if_pos h2]; exact Or.inl rfl
    · rw [if_neg h2]
      by_cases h3 : 40 ≤ 60 / mean (peakIntervals s.timestamps (calcPeaks s)) ∧
          60 / mean (peakIntervals s.timestamps (calcPeaks s)) ≤ 200
      · rw [if_pos h3]
        exact Or.inr ⟨_, h3.1, h3.2, rfl⟩
      · rw [if_neg h3]; exact Or.inl rfl
  · rw [if_neg h1]; exact Or.inl rfl

lemma calcSpo2_cases (s : Monitor) :
    (calcSpo2 s).2 = s ∨
    ∃ v : ℝ, 70 ≤ v ∧ v ≤ 100 ∧ 30 ≤ s.ir_buffer.length ∧ 30 ≤ s.red_buffer.length ∧
      (calcSpo2 s).2 = { s with spo2 := if s.spo2 = 0 then v
                                        else 8/10 * s.spo2 + 2/10 * v } := by
  simp only [calcSpo2]
  by_cases g1 : s.ir_buffer.length < 30 ∨ s.red_buffer.length < 30
  · rw [if_pos g1]; exact Or.inl rfl
  · rw [if_neg g1]
    by_cases g2 : ((mean s.ir_buffer : ℚ) : ℝ) = 0 ∨ ((mean s.red_buffer : ℚ) : ℝ) = 0 ∨
        stdR s.ir_buffer = 0
    · rw [if_pos g2]; exact Or.inl rfl
    · rw [if_neg g2]
      by_cases g3 : (70:ℝ) ≤ 110 - 25 * ((stdR s.red_buffer / ((mean s.red_buffer : ℚ) : ℝ)) /
            (stdR s.ir_buffer / ((mean s.ir_buffer : ℚ) : ℝ))) ∧
          110 - 25 * ((stdR s.red_buffer / ((mean s.red_buffer : ℚ) : ℝ)) /
            (stdR s.ir_buffer / ((mean s.ir_buffer : ℚ) : ℝ))) ≤ 100
      · rw [if_pos g3]
        exact Or.inr ⟨_, g3.1, g3.2, by omega, by omega, rfl⟩
      · rw [if_neg g3]; exact Or.inl rfl

lemma inv_bpmStep (s : Monitor) (h : MonitorInv s) : MonitorInv (calcBpm s).2 := by
  obtain ⟨h1, h2, h3, h4, h5, h6, h7⟩ := h
  unfold calcBpm
  split_ifs with hl1 hl2
  · exact ⟨h1, h2, h3, h4, h5, h6, h7⟩
  · exact ⟨h1, h2, h3, h4, h5, h6, h7⟩
  · show MonitorInv (bpmUpdate s)
    obtain hu | ⟨nb, hnb1, hnb2, hu⟩ := bpmUpdate_cases s
    · rw [hu]; exact ⟨h1, h2, h3, h4, h5, h6, h7⟩
    · rw [hu]
      refine ⟨h1, h2, h3, ?_, fun hlt => absurd hlt hl1, h6, h7⟩
      by_cases hz : s.bpm = 0
      · simp only [if_pos hz]
        exact Or.inr ⟨hnb1, hnb2⟩
      · simp only [if_neg hz]
        have hb : 40 ≤ s.bpm ∧ s.bpm ≤ 200 := h4.resolve_left hz
        unfold bpmBlend
        exact Or.inr ⟨by linarith [hb.1, hb.2], by linarith [hb.1, hb.2]⟩

lemma inv_spo2Step (s : Monitor) (h : MonitorInv s) : MonitorInv (calcSpo2 s).2 := by
  obtain ⟨h1, h2, h3, h4, h5, h6, h7⟩ := h
  obtain hu | ⟨v, hv1, hv2, hlir, hlred, hu⟩ := calcSpo2_cases s
  · rw [hu]; exact ⟨h1, h2, h3, h4, h5, h6, h7⟩
  · rw [hu]
    refine ⟨h1, h2, h3, h4, h5, ?_,
      fun hlt => absurd (show s.ir_buffer.length < 30 from hlt) (by omega)⟩
    by_cases hz : s.spo2 = 0
    · simp only [if_pos hz]
      exact Or.inr ⟨hv1, hv2⟩
    · simp only [if_neg hz]
      have hb : 70 ≤ s.spo2 ∧ s.spo2 ≤ 100 := h6.resolve_left hz
      exact Or.inr ⟨by linarith [hb.1, hb.2], by linarith [hb.1, hb.2]⟩

lemma reachable_inv (s : Monitor) (h : Reachable s) : MonitorInv s := by
  induction h with
  | init cap => exact inv_init cap
  | add s ir red t _ ih => exact inv_add s ir red t ih
  | bpm s _ ih => exact inv_bpmStep s ih
  | spo2 s _ ih => exact inv_spo2Step s ih

/-- C4: on every reachable monitor state the stored smoothed BPM is 0 or
lies in [40, 200]; `calculate_bpm` returns the integer truncation of the
stored (post-update) smoothed BPM, and hence never returns a nonzero
value outside [40, 200]. -/
theorem bpm_range_invariant (s : Monitor) (h : Reachable s) :
    (s.bpm = 0 ∨ 40 ≤ s.bpm ∧ s.bpm ≤ 200) ∧
    (calcBpm s).1 = ((pyInt (calcBpm s).2.bpm : ℤ) : ℚ) ∧
    ((calcBpm s).1 = 0 ∨ 40 ≤ (calcBpm s).1 ∧ (calcBpm s).1 ≤ 200) := by
  obtain ⟨h1, h2, h3, h4, h5, h6, h7⟩ := reachable_inv s h
  have hret : (calcBpm s).1 = ((pyInt (calcBpm s).2.bpm : ℤ) : ℚ) := by
    unfold calcBpm
    split_ifs with hl1 hl2
    · show (0:ℚ) = ((pyInt s.bpm : ℤ) : ℚ)
      rw [h5 hl1]; decide
    · exact absurd hl2 (by omega)
    · rfl
  refine ⟨h4, hret, ?_⟩
  have hinv' := reachable_inv _ (Reachable.bpm s h)
  obtain hb0 | ⟨hb1, hb2⟩ := hinv'.2.2.2.1
  · left; rw [hret, hb0]; decide
  · right
    rw [hret]
    have hfl : pyInt (calcBpm s).2.bpm = ⌊(calcBpm s).2.bpm⌋ :=
      pyInt_eq_floor _ (by linarith)
    constructor
    · rw [hfl]
      have hge : (40:ℤ) ≤ ⌊(calcBpm s).2.bpm⌋ := Int.le_floor.mpr (by exact_mod_cast hb1)
      exact_mod_cast hge
    · rw [hfl]
      calc ((⌊(calcBpm s).2.bpm⌋ : ℤ) : ℚ) ≤ (calcBpm s).2.bpm := Int.floor_le _
        _ ≤ 200 := hb2

/-- Witness for C4 at a fresh monitor. -/
theorem bpm_range_invariant_witness :
    (calcBpm (initMonitor 100)).1 = 0 ∨
    (40 ≤ (calcBpm (initMonitor 100)).1 ∧ (calcBpm (initMonitor 100)).1 ≤ 200) :=
  (bpm_range_invariant (initMonitor 100) (Reachable.init 100)).2.2

/-- C7: on every reachable monitor state with fewer than 30 buffered ir
samples, `calculate_bpm` returns the previous smoothed BPM (necessarily
0 there) and leaves the whole state — smoothed bpm, beat times, buffers —
unmodified. -/
theorem calcBpm_insufficient_data (s : Monitor) (h : Reachable s)
    (hlen : s.ir_buffer.length < 30) :
    calcBpm s = (s.bpm, s) ∧ s.bpm = 0 := by
  have hb : s.bpm = 0 := (reachable_inv s h).2.2.2.2.1 hlen
  refine ⟨?_, hb⟩
  unfold calcBpm
  rw [if_pos hlen, hb]

/-- Witness for C7 at a fresh monitor. -/
theorem calcBpm_insufficient_data_witness :
    calcBpm (initMonitor 100) = ((initMonitor 100).bpm, initMonitor 100) ∧
    (initMonitor 100).bpm = 0 :=
  calcBpm_insufficient_data (initMonitor 100) (Reachable.init 100) (by decide)

/-! Peak indices stay in bounds (C10). -/

lemma mem_findPeaks (sm : List ℚ) (thr : ℚ) (p : ℕ) (hp : p ∈ findPeaks sm thr) :
    1 ≤ p ∧ p + 2 ≤ sm.length := by
  unfold findPeaks at hp
  rw [List.mem_filter] at hp
  have hr := List.mem_range'_1.mp hp.1
  omega

lemma reachable_pushAll (xs : List (ℚ × ℚ × ℚ)) :
    ∀ s : Monitor, Reachable s → Reachable (pushAll s xs) := by
  induction xs with
  | nil => intro s h; exact h
  | cons a xs ih =>
    intro s h
    rw [pushAll_cons]
    exact ih _ (Reachable.add s a.1 a.2.1 a.2.2 h)

/-- C10: on every reachable monitor state the ir, red and timestamp
buffers have equal length, and whenever ≥ 30 samples are buffered, every
peak index found by `calculate_bpm` satisfies 1 ≤ p ≤ len - 6 (the
smoothed series is 4 entries shorter than the buffer and peaks are
interior indices), so every access `self.timestamps[peaks[i]]` is within
bounds and `calculate_bpm` raises no index error. -/
theorem peak_index_safety (s : Monitor) (h : Reachable s) :
    s.ir_buffer.length = s.red_buffer.length ∧
    s.timestamps.length = s.ir_buffer.length ∧
    (30 ≤ s.ir_buffer.length →
      ∀ p ∈ calcPeaks s, 1 ≤ p ∧ p + 6 ≤ s.ir_buffer.length ∧
        p < s.timestamps.length) := by
  obtain ⟨h1, h2, h3, h4, h5, h6, h7⟩ := reachable_inv s h
  refine ⟨h1.symm, h2, ?_⟩
  intro hlen p hp
  have hp' : p ∈ findPeaks (smoothedOf s) (thresholdOf s) := hp
  have hb := mem_findPeaks _ _ p hp'
  have hb2 := hb.2
  have hsm : (smoothedOf s).length = s.ir_buffer.length - 4 := by
    simp [smoothedOf, movAvg]
  rw [hsm] at hb2
  exact ⟨hb.1, by omega, by omega⟩

/-- Witness for C10: a 30-sample session whose ir channel carries one
clean pulse; the single detected peak index 12 obeys all three bounds. -/
theorem peak_index_safety_witness :
    1 ≤ 12 ∧ 12 + 6 ≤ (pushAll (initMonitor 100)
      [((0:ℚ),(0:ℚ),(0:ℚ)),(0,0,0),(0,0,0),(0,0,0),(0,0,0),(0,0,0),(0,0,0),(0,0,0),(0,0,0),(0,0,0),
       (10,0,0),(20,0,0),(30,0,0),(40,0,0),(50,0,0),(40,0,0),(30,0,0),(20,0,0),(10,0,0),(0,0,0),
       (0,0,0),(0,0,0),(0,0,0),(0,0,0),(0,0,0),(0,0,0),(0,0,0),(0,0,0),(0,0,0),(0,0,0)]).ir_buffer.length ∧
    12 < (pushAll (initMonitor 100)
      [((0:ℚ),(0:ℚ),(0:ℚ)),(0,0,0),(0,0,0),(0,0,0),(0,0,0),(0,0,0),(0,0,0),(0,0,0),(0,0,0),(0,0,0),
       (10,0,0),(20,0,0),(30,0,0),(40,0,0),(50,0,0),(40,0,0),(30,0,0),(20,0,0),(10,0,0),(0,0,0),
       (0,0,0),(0,0,0),(0,0,0),(0,0,0),(0,0,0),(0,0,0),(0,0,0),(0,0,0),(0,0,0),(0,0,0)]).timestamps.length :=
  (peak_index_safety _ (reachable_pushAll _ _ (Reachable.init 100))).2.2
    (by decide) 12 (by decide)

/-! Degenerate-signal safety of the SpO2 estimator (C6). -/

lemma sum_of_const (l : List ℚ) (c : ℚ) (h : ∀ x ∈ l, x = c) : l.sum = c * l.length := by
  induction l with
  | nil => simp
  | cons x xs ih =>
    have hx : x = c := h x (by simp)
    have hxs : ∀ y ∈ xs, y = c := fun y hy => h y (by simp [hy])
    rw [List.sum_cons, hx, ih hxs, List.length_cons]
    push_cast
    ring

lemma mean_of_const (l : List ℚ) (c : ℚ) (hl : l ≠ []) (h : ∀ x ∈ l, x = c) :
    mean l = c := by
  unfold mean
  rw [sum_of_const l c h]
  have hn : (l.length : ℚ) ≠ 0 := by
    have := List.length_pos.mpr hl
    positivity
  field_simp

lemma variance_of_const (l : List ℚ) (c : ℚ) (h : ∀ x ∈ l, x = c) : variance l = 0 := by
  by_cases hl : l = []
  · subst hl; decide
  · unfold variance
    have hm : mean l = c := mean_of_const l c hl h
    have hz : ∀ y ∈ l.map (fun x => (x - mean l) ^ 2), y = 0 := by
      intro y hy
      rw [List.mem_map] at hy
      obtain ⟨x, hx, rfl⟩ := hy
      rw [h x hx, hm]
      ring
    rw [mean, sum_of_const _ 0 hz]
    simp

/-- C6: on every monitor state whose buffers hold at least 30 samples
with both channels constant (zero AC), or whose ir or red mean (DC) is
zero, `calculate_spo2` takes the guarded early return — the divisions are
never reached, no exception can arise — and yields the prior smoothed
SpO2 with the state unchanged. -/
theorem spo2_degenerate_guard (s : Monitor)
    (h1 : 30 ≤ s.ir_buffer.length) (h2 : 30 ≤ s.red_buffer.length)
    (h3 : ((∃ c, ∀ x ∈ s.ir_buffer, x = c) ∧ (∃ c, ∀ x ∈ s.red_buffer, x = c)) ∨
      mean s.ir_buffer = 0 ∨ mean s.red_buffer = 0) :
    calcSpo2 s = (s.spo2, s) := by
  have hguard : ((mean s.ir_buffer : ℚ) : ℝ) = 0 ∨ ((mean s.red_buffer : ℚ) : ℝ) = 0 ∨
      stdR s.ir_buffer = 0 := by
    rcases h3 with ⟨⟨c, hc⟩, _⟩ | hm | hm
    · right; right
      unfold stdR
      rw [variance_of_const _ c hc]
      simp
    · left; rw [hm]; exact Rat.cast_zero
    · right; left; rw [hm]; exact Rat.cast_zero
  simp only [calcSpo2]
  rw [if_neg (show ¬(s.ir_buffer.length < 30 ∨ s.red_buffer.length < 30) by omega),
    if_pos hguard]

/-- Witness for C6: thirty identical (5, 5) samples. -/
theorem spo2_degenerate_guard_witness :
    calcSpo2 (pushAll (initMonitor 100) (List.replicate 30 ((5:ℚ), (5:ℚ), (0:ℚ)))) =
      ((pushAll (initMonitor 100) (List.replicate 30 ((5:ℚ), (5:ℚ), (0:ℚ)))).spo2,
       pushAll (initMonitor 100) (List.replicate 30 ((5:ℚ), (5:ℚ), (0:ℚ)))) :=
  spo2_degenerate_guard _ (by decide) (by decide)
    (Or.inl ⟨⟨5, by decide⟩, ⟨5, by decide⟩⟩)

/-! The SpO2 invariant and the return paths of `calculate_spo2` (C5). -/

/-- C5 (amended): on every reachable monitor state the stored smoothed
SpO2 is 0 (never set) or lies in [70, 100], and `calculate_spo2` returns
the integer-truncated smoothed SpO2 on the insufficient-data and normal
paths — but on the degenerate-signal guard path it returns the raw stored
value without the `int(…)` truncation (the two coincide only when that
value is integral). -/
theorem spo2_range_invariant (s : Monitor) (h : Reachable s) :
    (s.spo2 = 0 ∨ 70 ≤ s.spo2 ∧ s.spo2 ≤ 100) ∧
    ((calcSpo2 s).1 = ((pyIntR (calcSpo2 s).2.spo2 : ℤ) : ℝ) ∨
      (spo2Guard s ∧ (calcSpo2 s).1 = s.spo2 ∧ (calcSpo2 s).2 = s)) := by
  obtain ⟨h1, h2, h3, h4, h5, h6, h7⟩ := reachable_inv s h
  refine ⟨h6, ?_⟩
  by_cases g1 : s.ir_buffer.length < 30 ∨ s.red_buffer.length < 30
  · left
    have hz : s.spo2 = 0 := h7 (by omega)
    simp only [calcSpo2]
    rw [if_pos g1]
    show (0:ℝ) = ((pyIntR s.spo2 : ℤ) : ℝ)
    rw [hz]
    simp [pyIntR]
  · by_cases g2 : ((mean s.ir_buffer : ℚ) : ℝ) = 0 ∨ ((mean s.red_buffer : ℚ) : ℝ) = 0 ∨
        stdR s.ir_buffer = 0
    · right
      refine ⟨⟨g1, g2⟩, ?_, ?_⟩
      · simp only [calcSpo2]; rw [if_neg g1, if_pos g2]
      · simp only [calcSpo2]; rw [if_neg g1, if_pos g2]
    · left
      simp only [calcSpo2]
      rw [if_neg g1, if_neg g2]

/-- Witness for C5 at a fresh monitor. -/
theorem spo2_range_invariant_witness :
    (calcSpo2 (initMonitor 100)).1 = ((pyIntR (calcSpo2 (initMonitor 100)).2.spo2 : ℤ) : ℝ) ∨
      (spo2Guard (initMonitor 100) ∧
       (calcSpo2 (initMonitor 100)).1 = (initMonitor 100).spo2 ∧
       (calcSpo2 (initMonitor 100)).2 = initMonitor 100) :=
  (spo2_range_invariant (initMonitor 100) (Reachable.init 100)).2

/-- Counterexample to C5 as stated: `cexState` is reachable (30 samples
set the smoothed SpO2 to 97.5, then 30 more drive the ir mean to 0); on
it `calculate_spo2` takes the degenerate-signal guard path and returns
the raw value 97.5 = 195/2, which is not the integer truncation (97) the
claim prescribes for every path. -/
theorem spo2_guard_returns_untruncated :
    Reachable cexState ∧
    (calcSpo2 cexState).1 = 195/2 ∧
    (calcSpo2 cexState).2.spo2 = 195/2 ∧
    ¬((195:ℝ)/2 = ((pyIntR ((195:ℝ)/2) : ℤ) : ℝ)) := by
  have hcalc1 : calcSpo2 (pushAll (initMonitor 100) cexBatch1) =
      (((pyIntR ((195:ℝ)/2) : ℤ) : ℝ),
       { pushAll (initMonitor 100) cexBatch1 with spo2 := (195:ℝ)/2 }) := by
    have hm_ir : mean (pushAll (initMonitor 100) cexBatch1).ir_buffer = 100 := by decide
    have hm_red : mean (pushAll (initMonitor 100) cexBatch1).red_buffer = 200 := by decide
    have hv_ir : variance (pushAll (initMonitor 100) cexBatch1).ir_buffer = 4 := by decide
    have hv_red : variance (pushAll (initMonitor 100) cexBatch1).red_buffer = 4 := by decide
    have hstd_ir : stdR (pushAll (initMonitor 100) cexBatch1).ir_buffer = 2 := by
      rw [stdR, hv_ir, show ((4:ℚ):ℝ) = 2^2 by norm_num]
      exact Real.sqrt_sq (by norm_num)
    have hstd_red : stdR (pushAll (initMonitor 100) cexBatch1).red_buffer = 2 := by
      rw [stdR, hv_red, show ((4:ℚ):ℝ) = 2^2 by norm_num]
      exact Real.sqrt_sq (by norm_num)
    have hsp : (pushAll (initMonitor 100) cexBatch1).spo2 = 0 :=
      pushAll_spo2 cexBatch1 (initMonitor 100)
    simp only [calcSpo2]
    rw [if_neg (by decide)]
    rw [hm_ir, hm_red, hstd_ir, hstd_red]
    rw [if_neg (by push_cast; norm_num)]
    rw [show ((110:ℝ) - 25 * ((2:ℝ) / ((200:ℚ):ℝ) / ((2:ℝ) / ((100:ℚ):ℝ)))) = 195/2 by
      push_cast; norm_num]
    rw [if_pos (by norm_num : (70:ℝ) ≤ 195/2 ∧ (195:ℝ)/2 ≤ 100)]
    rw [hsp, if_pos rfl]
  have hs3 : cexState =
      pushAll { pushAll (initMonitor 100) cexBatch1 with spo2 := (195:ℝ)/2 } cexBatch2 := by
    rw [cexState, hcalc1]
  have hm3 : mean (pushAll { pushAll (initMonitor 100) cexBatch1 with
      spo2 := (195:ℝ)/2 } cexBatch2).ir_buffer = 0 := by decide
  have hlen3 : ¬((pushAll { pushAll (initMonitor 100) cexBatch1 with
        spo2 := (195:ℝ)/2 } cexBatch2).ir_buffer.length < 30 ∨
      (pushAll { pushAll (initMonitor 100) cexBatch1 with
        spo2 := (195:ℝ)/2 } cexBatch2).red_buffer.length < 30) := by decide
  have hsp3 : (pushAll { pushAll (initMonitor 100) cexBatch1 with
      spo2 := (195:ℝ)/2 } cexBatch2).spo2 = (195:ℝ)/2 :=
    pushAll_spo2 cexBatch2 _
  have hcalc2 : calcSpo2 (pushAll { pushAll (initMonitor 100) cexBatch1 with
        spo2 := (195:ℝ)/2 } cexBatch2) =
      ((pushAll { pushAll (initMonitor 100) cexBatch1 with
        spo2 := (195:ℝ)/2 } cexBatch2).spo2,
       pushAll { pushAll (initMonitor 100) cexBatch1 with
        spo2 := (195:ℝ)/2 } cexBatch2) := by
    simp only [calcSpo2]
    rw [if_neg hlen3, if_pos (Or.inl (by rw [hm3]; exact Rat.cast_zero))]
  have hreach : Reachable cexState :=
    reachable_pushAll _ _ (Reachable.spo2 _ (reachable_pushAll _ _ (Reachable.init 100)))
  have hfl : ¬((195:ℝ)/2 = ((pyIntR ((195:ℝ)/2) : ℤ) : ℝ)) := by
    have h97 : ⌊(195:ℝ)/2⌋ = 97 := by
      apply Int.floor_eq_iff.mpr
      constructor <;> norm_num
    simp only [pyIntR]
    rw [if_neg (by norm_num)]
    rw [h97]
    norm_num
  refine ⟨hreach, ?_, ?_, hfl⟩
  · rw [hs3, hcalc2, hsp3]
  · rw [hs3, hcalc2, hsp3]

/-! Warm-up gating of the api.read_sensor loop (C3). -/

lemma calcBpm_ir (s : Monitor) :
    (calcBpm s).2.ir_buffer = s.ir_buffer ∧ (calcBpm s).2.cap = s.cap := by
  unfold calcBpm
  split_ifs with hl1 hl2
  · exact ⟨rfl, rfl⟩
  · exact ⟨rfl, rfl⟩
  · show (bpmUpdate s).ir_buffer = s.ir_buffer ∧ (bpmUpdate s).cap = s.cap
    obtain hu | ⟨nb, _, _, hu⟩ := bpmUpdate_cases s <;> rw [hu] <;> exact ⟨rfl, rfl⟩

lemma calcSpo2_ir (s : Monitor) :
    (calcSpo2 s).2.ir_buffer = s.ir_buffer ∧ (calcSpo2 s).2.cap = s.cap := by
  obtain hu | ⟨v, _, _, _, _, hu⟩ := calcSpo2_cases s <;> rw [hu] <;> exact ⟨rfl, rfl⟩

/-- C3 (amended): in the `read_sensor` loop of api.py a tick whose
elapsed time does not exceed the warm-up duration changes nothing — the
sample is NOT pushed into the buffer and no estimate is computed or
aggregated; only a tick with elapsed time strictly beyond the warm-up
pushes the sample. -/
theorem warmup_no_push (warmup elapsed ir red t : ℚ) (st : ApiSession) :
    (elapsed ≤ warmup → apiTick warmup elapsed ir red t st = st) ∧
    (warmup < elapsed → (apiTick warmup elapsed ir red t st).monitor.ir_buffer =
      dequePush st.monitor.cap st.monitor.ir_buffer ir) := by
  constructor
  · intro h
    simp only [apiTick]
    rw [if_neg (not_lt.mpr h)]
  · intro h
    simp only [apiTick]
    rw [if_pos h]
    by_cases hf : isFingerDetected (addSample st.monitor ir red t) = true
    · rw [if_pos hf]
      show (calcSpo2 (calcBpm (addSample st.monitor ir red t)).2).2.ir_buffer = _
      rw [(calcSpo2_ir _).1, (calcBpm_ir _).1]
      rfl
    · rw [if_neg hf]
      rfl

/-- Witness for C3: at warm-up 3 s, a tick at 1 s changes nothing and a
tick at 5 s pushes its sample. -/
theorem warmup_no_push_witness :
    apiTick 3 1 20000 20000 0 apiInit = apiInit ∧
    (apiTick 3 5 20000 20000 0 apiInit).monitor.ir_buffer =
      dequePush apiInit.monitor.cap apiInit.monitor.ir_buffer 20000 := by
  constructor
  · exact (warmup_no_push 3 1 20000 20000 0 apiInit).1 (by norm_num)
  · exact (warmup_no_push 3 5 20000 20000 0 apiInit).2 (by norm_num)

/-- Counterexample to C3 as stated: a successfully read sample arriving
at elapsed time 1 s of a session with warm-up 3 s is NOT pushed into the
signal buffer — the buffer stays empty, where the claim requires it to
contain the sample. -/
theorem warmup_sample_not_pushed :
    (1:ℚ) ≤ 3 ∧
    (apiTick 3 1 20000 20000 0 apiInit).monitor.ir_buffer = [] ∧
    ([] : List ℚ) ≠ [20000] := by
  refine ⟨by norm_num, ?_, by decide⟩
  simp only [apiTick]
  rw [if_neg (by norm_num)]
  rfl
